import Mathlib

/-!
Shallow embedding of src/proprietary_ble.c: a fixed-capacity block pool
and a bounded recency cache of BLE pairing advertisements (device queue),
together with the two reporting views (by time, by rssi).

The device queue (global head/tail doubly-linked list in the C source) is
modelled as a Lean list, head first, so the front of the list is the
most-recently-updated end.  The pool is modelled positionally: block
indices stand for block addresses, each block carries its nextfree link
(an Option index, none standing for the NULL pointer), and the header
carries the free-list head.
-/

/-- Mirror of the C struct pair_adv_data_t.  The two opaque byte buffers
are modelled as lists of naturals; rssi and the ids are naturals. -/
structure PairAdvData where
  device_id : Nat
  device_name : List Nat
  device_data : List Nat
  rf_address : Nat
  rssi : Nat
deriving DecidableEq

/-- Mirror of the C struct device_t, minus the intrusive prev/next links,
which are absorbed into the position of the record in the queue list. -/
structure Device where
  adv : PairAdvData
  discovery_time : Nat
deriving DecidableEq

/-- The capacity constant: the C source hard-codes 32 in on_discovery and
in the pool sizing. -/
def MAX_DEVICES : Nat := 32

/-- C find_duplicate: linear scan from head for the first node whose
adv.device_id equals the device_id of the incoming observation; NULL (none)
when no node matches. -/
def find_duplicate (q : List Device) (data : PairAdvData) : Option Device :=
  q.find? (fun cur => cur.adv.device_id == data.device_id)

/-- C on_discovery: merge path moves the duplicate node to the head and
overwrites its rssi and discovery_time; insert path first runs the
defensive loop (while device_count > 32 pop the tail) and the capacity
check (if device_count == 32 pop the tail and reuse the node), which
together leave the first 31 nodes whenever the count is at least 32,
then pushes a node fully populated from the observation. -/
def on_discovery (q : List Device) (data : PairAdvData) (timestamp : Nat) :
    List Device :=
  match find_duplicate q data with
  | some dupe =>
      { dupe with
          adv := { dupe.adv with rssi := data.rssi },
          discovery_time := timestamp }
        :: q.eraseP (fun cur => cur.adv.device_id == data.device_id)
  | none =>
      let trimmed := if MAX_DEVICES ≤ q.length
        then q.take (MAX_DEVICES - 1) else q
      { adv := data, discovery_time := timestamp } :: trimmed

/-- One step of a discovery trace: the event carries the observation and
the value systime_ms_get returned for that call. -/
def discovery_step (q : List Device) (ev : PairAdvData × Nat) : List Device :=
  on_discovery q ev.1 ev.2

/-- The cache state reached from the empty cache after a sequence of
on_discovery calls. -/
def runTrace (evs : List (PairAdvData × Nat)) : List Device :=
  evs.foldl discovery_step []

/-- C print_queue_by_time: walks the queue from head to tail printing one
row (discovery_time, device_id, rssi) per node; the cache state is not
touched, so the function is a pure view of the queue. -/
def print_queue_by_time (q : List Device) : List (Nat × Nat × Nat) :=
  q.map (fun cur => (cur.discovery_time, cur.adv.device_id, cur.adv.rssi))

/-- One insertion of the C insertion sort in print_queue_by_rssi: the new
node is appended after the sorted prefix and swapped forward while it is
strictly stronger than its predecessor, so it lands after every node of
equal or greater rssi and before the first strictly weaker one. -/
def bubble_insert (x : Device) : List Device → List Device
  | [] => [x]
  | y :: ys =>
      if y.adv.rssi < x.adv.rssi then x :: y :: ys
      else y :: bubble_insert x ys

/-- The sorted array built by print_queue_by_rssi: the queue is walked
from head (most recent) to tail, each node inserted by bubble_insert;
the walk breaks once 32 nodes have been placed. -/
def insertion_sort_by_rssi (q : List Device) : List Device :=
  (q.take MAX_DEVICES).foldl (fun acc x => bubble_insert x acc) []

/-- The 32 array slots of print_queue_by_rssi after the sort: the first
count slots hold the sorted nodes, the remaining slots keep their
initializer NULL (none). -/
def sorted_slots (q : List Device) : List (Option Device) :=
  let s := insertion_sort_by_rssi q
  s.map some ++ List.replicate (MAX_DEVICES - s.length) none

/-- The printing loop of print_queue_by_rssi: it iterates over all 32
slots unconditionally and dereferences each slot pointer; a NULL slot is
a crash, modelled by the whole result collapsing to none. -/
def print_queue_by_rssi (q : List Device) : Option (List (Nat × Nat × Nat)) :=
  (sorted_slots q).mapM
    (fun slot => slot.map
      (fun cur => (cur.discovery_time, cur.adv.device_id, cur.adv.rssi)))

/-- The discovery times of the queue, head (most recent) first. -/
def queue_times (q : List Device) : List Nat :=
  q.map (fun cur => cur.discovery_time)

/-! ### The fixed-capacity block pool -/

/-- The two warnings pool_free can print. -/
inductive PoolWarning where
  | nullFree
  | doubleFree
deriving DecidableEq

/-- Mirror of the pool: nextfree is the free-list head held in the header (a block
index, or none for NULL); blocks is the per-block nextfree link stored
in each blockheader_t (none for NULL). -/
structure FixedPool where
  nextfree : Option Nat
  blocks : List (Option Nat)
deriving DecidableEq

/-- C pool_init: walks the blocks backwards chaining block i to block
i+1, the last block to NULL, and leaves the header pointing at block 0
(NULL when the count is zero). -/
def pool_init (blockcount : Nat) : FixedPool :=
  { nextfree := if blockcount = 0 then none else some 0,
    blocks := (List.range blockcount).map
      (fun i => if i + 1 < blockcount then some (i + 1) else none) }

/-- C pool_alloc: pops the head of the free list, clearing the popped
link of the popped block; returns NULL (none) when the free list is empty. -/
def pool_alloc (p : FixedPool) : FixedPool × Option Nat :=
  match p.nextfree with
  | some b =>
      ({ nextfree := p.blocks.getD b none, blocks := p.blocks.set b none },
       some b)
  | none => (p, none)

/-- C pool_free: a NULL pointer only prints a warning and returns; a
block whose link is non-NULL triggers the double-free warning; in every
non-NULL case the block is pushed onto the free list. -/
def pool_free (p : FixedPool) (ptr : Option Nat) :
    FixedPool × Option PoolWarning :=
  match ptr with
  | none => (p, some PoolWarning.nullFree)
  | some b =>
      ({ nextfree := some b, blocks := p.blocks.set b p.nextfree },
       if p.blocks.getD b none ≠ none then some PoolWarning.doubleFree
       else none)

/-- n successive pool_alloc calls, collecting the returned pointers. -/
def alloc_many (p : FixedPool) : Nat → FixedPool × List (Option Nat)
  | 0 => (p, [])
  | n + 1 =>
      let r := pool_alloc p
      let rest := alloc_many r.1 n
      (rest.1, r.2 :: rest.2)

/-! ### Concrete traces used by the claims -/

/-- An observation with the given id, rssi taken equal to the id and the
opaque fields empty: enough to drive the queue logic. -/
def mkAdv (id rssi : Nat) : PairAdvData :=
  { device_id := id, device_name := [], device_data := [],
    rf_address := 0, rssi := rssi }

/-- Distinct ids 1..n observed in order, at times 1..n. -/
def fillTrace (n : Nat) : List (PairAdvData × Nat) :=
  (List.range n).map (fun i => (mkAdv (i + 1) (i + 1), i + 1))

/-- The device ids of the queue, head (most recent) first. -/
def queue_ids (q : List Device) : List Nat :=
  q.map (fun cur => cur.adv.device_id)

/-! ### Helper lemmas about the queue step -/

lemma find_duplicate_none_iff (q : List Device) (data : PairAdvData) :
    find_duplicate q data = none ↔
      ∀ cur ∈ q, cur.adv.device_id ≠ data.device_id := by
  unfold find_duplicate
  rw [List.find?_eq_none]
  constructor
  · intro h cur hc
    have := h cur hc
    simpa using this
  · intro h cur hc
    simpa using h cur hc

lemma find_duplicate_some_id (q : List Device) (data : PairAdvData)
    (d : Device) (h : find_duplicate q data = some d) :
    d.adv.device_id = data.device_id := by
  have := List.find?_some h
  simpa using this

lemma find_duplicate_some_mem (q : List Device) (data : PairAdvData)
    (d : Device) (h : find_duplicate q data = some d) : d ∈ q :=
  List.mem_of_find?_eq_some h

lemma key_not_mem_eraseP_ids (q : List Device) (key : Nat)
    (h : (queue_ids q).Nodup) :
    key ∉ queue_ids (q.eraseP (fun cur => cur.adv.device_id == key)) := by
  induction q with
  | nil => simp [queue_ids, List.eraseP]
  | cons c rest ih =>
      rw [queue_ids, List.map_cons, List.nodup_cons] at h
      by_cases hc : c.adv.device_id = key
      · rw [List.eraseP_cons_of_pos (by simpa using hc)]
        rw [← hc]
        exact fun hmem => h.1 hmem
      · rw [List.eraseP_cons_of_neg (by simpa using hc)]
        rw [queue_ids, List.map_cons]
        intro hmem
        rcases List.mem_cons.mp hmem with h1 | h2
        · exact hc h1.symm
        · exact ih h.2 h2

lemma eraseP_ids_sublist (q : List Device) (p : Device → Bool) :
    (queue_ids (q.eraseP p)).Sublist (queue_ids q) :=
  List.Sublist.map _ (List.eraseP_sublist q)

lemma trimmed_sublist (q : List Device) :
    (if MAX_DEVICES ≤ q.length then q.take (MAX_DEVICES - 1) else q).Sublist
      q := by
  by_cases h : MAX_DEVICES ≤ q.length
  · rw [if_pos h]; exact List.take_sublist _ _
  · rw [if_neg h]

/-- The queue ids after a step: the step preserves Nodup of the ids. -/
lemma on_discovery_ids_nodup (q : List Device) (data : PairAdvData)
    (ts : Nat) (h : (queue_ids q).Nodup) :
    (queue_ids (on_discovery q data ts)).Nodup := by
  cases hfd : find_duplicate q data with
  | some d =>
      have hid := find_duplicate_some_id q data d hfd
      simp only [on_discovery, hfd, queue_ids, List.map_cons]
      rw [List.nodup_cons]
      constructor
      · show d.adv.device_id ∉ _
        rw [hid]
        exact key_not_mem_eraseP_ids q data.device_id h
      · exact List.Nodup.sublist (eraseP_ids_sublist q _) h
  | none =>
      have hno := (find_duplicate_none_iff q data).mp hfd
      simp only [on_discovery, hfd, queue_ids, List.map_cons]
      rw [List.nodup_cons]
      constructor
      · intro hmem
        rcases List.mem_map.mp hmem with ⟨c, hc, hcid⟩
        have hcq : c ∈ q := (trimmed_sublist q).subset hc
        exact hno c hcq hcid
      · exact List.Nodup.sublist (List.Sublist.map _ (trimmed_sublist q)) h

lemma on_discovery_length_merge (q : List Device) (data : PairAdvData)
    (ts : Nat) (d : Device) (h : find_duplicate q data = some d) :
    (on_discovery q data ts).length = q.length := by
  have hd : d ∈ q := find_duplicate_some_mem q data d h
  have hp : (fun cur => cur.adv.device_id == data.device_id) d = true := by
    simpa using find_duplicate_some_id q data d h
  have hpos : 0 < q.length := List.length_pos.mpr (by rintro rfl; cases hd)
  simp only [on_discovery, h, List.length_cons]
  rw [List.length_eraseP_of_mem hd hp]
  omega

lemma on_discovery_length_insert_full (q : List Device) (data : PairAdvData)
    (ts : Nat) (h : find_duplicate q data = none)
    (hlen : MAX_DEVICES ≤ q.length) :
    (on_discovery q data ts).length = MAX_DEVICES := by
  simp only [on_discovery, h, if_pos hlen, List.length_cons, List.length_take]
  have : MAX_DEVICES = 32 := rfl
  omega

lemma on_discovery_length_insert_notfull (q : List Device)
    (data : PairAdvData) (ts : Nat) (h : find_duplicate q data = none)
    (hlen : q.length < MAX_DEVICES) :
    (on_discovery q data ts).length = q.length + 1 := by
  simp only [on_discovery, h, if_neg (by omega : ¬ MAX_DEVICES ≤ q.length),
    List.length_cons]

lemma on_discovery_length_le (q : List Device) (data : PairAdvData)
    (ts : Nat) (h : q.length ≤ MAX_DEVICES) :
    (on_discovery q data ts).length ≤ MAX_DEVICES := by
  cases hfd : find_duplicate q data with
  | some d => rw [on_discovery_length_merge q data ts d hfd]; exact h
  | none =>
      by_cases hlen : MAX_DEVICES ≤ q.length
      · rw [on_discovery_length_insert_full q data ts hfd hlen]
      · rw [on_discovery_length_insert_notfull q data ts hfd (by omega)]
        omega

lemma runTrace_length_le (evs : List (PairAdvData × Nat)) :
    (runTrace evs).length ≤ MAX_DEVICES := by
  suffices h : ∀ q, q.length ≤ MAX_DEVICES →
      (evs.foldl discovery_step q).length ≤ MAX_DEVICES by
    exact h [] (by simp [MAX_DEVICES])
  induction evs with
  | nil => intro q hq; simpa using hq
  | cons e rest ih =>
      intro q hq
      rw [List.foldl_cons]
      exact ih _ (on_discovery_length_le q e.1 e.2 hq)

/-- Every id live in the queue after a step was either just observed or
was already live. -/
lemma on_discovery_mem_ids (q : List Device) (data : PairAdvData)
    (ts : Nat) (c : Device) (hc : c ∈ on_discovery q data ts) :
    c.adv.device_id = data.device_id ∨ c ∈ q := by
  cases hfd : find_duplicate q data with
  | some d =>
      simp only [on_discovery, hfd] at hc
      rcases List.mem_cons.mp hc with h1 | h2
      · left; rw [h1]; exact find_duplicate_some_id q data d hfd
      · right; exact (List.eraseP_sublist q).subset h2
  | none =>
      simp only [on_discovery, hfd] at hc
      rcases List.mem_cons.mp hc with h1 | h2
      · left; rw [h1]
      · right; exact (trimmed_sublist q).subset h2

/-- Every id live in the cache after a trace occurs in the trace. -/
lemma runTrace_ids_seen (evs : List (PairAdvData × Nat)) (c : Device)
    (hc : c ∈ runTrace evs) :
    c.adv.device_id ∈ evs.map (fun e => e.1.device_id) := by
  induction evs using List.reverseRecOn with
  | nil => cases hc
  | append_singleton l e ih =>
      rw [runTrace, List.foldl_append] at hc
      rcases on_discovery_mem_ids _ e.1 e.2 c hc with h1 | h2
      · simp [h1]
      · have := ih h2
        simp only [List.map_append, List.mem_append]
        left; exact this

/-- The live count is at least the number of distinct ids seen, capped at
the capacity. -/
lemma runTrace_length_ge (evs : List (PairAdvData × Nat)) :
    min ((evs.map (fun e => e.1.device_id)).toFinset.card) MAX_DEVICES ≤
      (runTrace evs).length := by
  induction evs using List.reverseRecOn with
  | nil => simp
  | append_singleton l e ih =>
      have hstep : runTrace (l ++ [e]) =
          on_discovery (runTrace l) e.1 e.2 := by
        rw [runTrace, List.foldl_append]; rfl
      have hcard : ((l ++ [e]).map (fun x => x.1.device_id)).toFinset.card ≤
          (l.map (fun x => x.1.device_id)).toFinset.card + 1 := by
        rw [List.map_append, List.toFinset_append]
        simp only [List.map_cons, List.map_nil, List.toFinset_cons,
          List.toFinset_nil]
        calc ((l.map fun x => x.1.device_id).toFinset ∪
              insert e.1.device_id ∅).card
            ≤ _ := Finset.card_union_le _ _
          _ ≤ _ := by simp
      cases hfd : find_duplicate (runTrace l) e.1 with
      | some d =>
          have hlen := on_discovery_length_merge (runTrace l) e.1 e.2 d hfd
          rw [hstep, hlen]
          have hdmem := find_duplicate_some_mem _ _ _ hfd
          have hdid := find_duplicate_some_id _ _ _ hfd
          have hseen : e.1.device_id ∈ l.map (fun x => x.1.device_id) := by
            have := runTrace_ids_seen l d hdmem
            rwa [hdid] at this
          have hsame : ((l ++ [e]).map (fun x => x.1.device_id)).toFinset =
              (l.map (fun x => x.1.device_id)).toFinset := by
            rw [List.map_append, List.toFinset_append]
            simp only [List.map_cons, List.map_nil, List.toFinset_cons,
              List.toFinset_nil]
            rw [Finset.union_comm]
            simp only [insert_emptyc_eq]
            exact Finset.union_eq_right.mpr
              (Finset.singleton_subset_iff.mpr (List.mem_toFinset.mpr hseen))
          rw [hsame]
          exact ih
      | none =>
          by_cases hfull : MAX_DEVICES ≤ (runTrace l).length
          · have hlen := on_discovery_length_insert_full (runTrace l) e.1
              e.2 hfd hfull
            rw [hstep, hlen]
            omega
          · have hlen := on_discovery_length_insert_notfull (runTrace l)
              e.1 e.2 hfd (by omega)
            rw [hstep, hlen]
            omega

/-- Claim C1: starting from the empty cache, after every sequence of
on_discovery calls no two live entries share a device_id. -/
theorem c1_uniqueness_invariant (evs : List (PairAdvData × Nat)) :
    (queue_ids (runTrace evs)).Nodup := by
  suffices h : ∀ q, (queue_ids q).Nodup →
      (queue_ids (evs.foldl discovery_step q)).Nodup by
    exact h [] (by simp [queue_ids])
  induction evs with
  | nil => intro q hq; simpa using hq
  | cons e rest ih =>
      intro q hq
      rw [List.foldl_cons]
      exact ih _ (on_discovery_ids_nodup q e.1 e.2 hq)

/-- Claim C2: after every sequence of on_discovery calls starting from
the empty cache, the live entry count is at most 32, and once the trace
has carried more than 32 distinct device ids the count is exactly 32. -/
theorem c2_capacity_invariant (evs : List (PairAdvData × Nat)) :
    (runTrace evs).length ≤ MAX_DEVICES ∧
      (MAX_DEVICES <
          ((evs.map (fun e => e.1.device_id)).toFinset.card) →
        (runTrace evs).length = MAX_DEVICES) := by
  refine ⟨runTrace_length_le evs, fun hgt => ?_⟩
  have h1 := runTrace_length_ge evs
  have h2 := runTrace_length_le evs
  omega

/-- Witness for C2 at a concrete trace of 33 distinct ids. -/
theorem c2_capacity_invariant_witness :
    MAX_DEVICES <
        (((fillTrace 33).map (fun e => e.1.device_id)).toFinset.card) ∧
      (runTrace (fillTrace 33)).length = MAX_DEVICES :=
  ⟨by decide, (c2_capacity_invariant (fillTrace 33)).2 (by decide)⟩

/-- Claim C3: an entry is removed only when an absent id arrives with the
cache full, and then exactly the least-recent (tail) entry is removed:
re-observing a present id preserves the set of live ids, inserting an
absent id below capacity removes nothing, inserting an absent id at
capacity drops exactly the last entry, and concretely filling with ids
1..32 and then observing id 33 leaves id 1 absent and id 33 present. -/
theorem c3_eviction_policy :
    (∀ (q : List Device) (data : PairAdvData) (ts : Nat) (d : Device),
        find_duplicate q data = some d →
        ∀ x, x ∈ queue_ids (on_discovery q data ts) ↔ x ∈ queue_ids q) ∧
    (∀ (q : List Device) (data : PairAdvData) (ts : Nat),
        find_duplicate q data = none → q.length < MAX_DEVICES →
        on_discovery q data ts = ⟨data, ts⟩ :: q) ∧
    (∀ (q : List Device) (data : PairAdvData) (ts : Nat),
        find_duplicate q data = none → q.length = MAX_DEVICES →
        on_discovery q data ts = ⟨data, ts⟩ :: q.dropLast) ∧
    (1 ∉ queue_ids (runTrace (fillTrace 33)) ∧
      33 ∈ queue_ids (runTrace (fillTrace 33))) := by
  refine ⟨?_, ?_, ?_, by decide, by decide⟩
  · intro q data ts d hfd x
    have hdid := find_duplicate_some_id q data d hfd
    have hdmem := find_duplicate_some_mem q data d hfd
    simp only [on_discovery, hfd, queue_ids, List.map_cons]
    constructor
    · intro hx
      rcases List.mem_cons.mp hx with h1 | h2
      · rw [h1]
        exact List.mem_map.mpr ⟨d, hdmem, rfl⟩
      · exact (List.Sublist.map _ (List.eraseP_sublist q)).subset h2
    · intro hx
      rcases List.mem_map.mp hx with ⟨c, hcq, hcx⟩
      by_cases hck : c.adv.device_id = data.device_id
      · refine List.mem_cons.mpr (Or.inl ?_)
        rw [← hcx, hck, hdid]
      · refine List.mem_cons.mpr (Or.inr ?_)
        refine List.mem_map.mpr ⟨c, ?_, hcx⟩
        exact (List.mem_eraseP_of_neg (by simpa using hck)).mpr hcq
  · intro q data ts hfd hlen
    simp only [on_discovery, hfd, if_neg (by omega : ¬ MAX_DEVICES ≤ q.length)]
  · intro q data ts hfd hlen
    simp only [on_discovery, hfd, if_pos (by omega : MAX_DEVICES ≤ q.length)]
    rw [List.dropLast_eq_take, hlen]

/-! ### Helper lemmas about the rssi insertion sort -/

/-- The ordering the sorted array satisfies: rssi weakly decreasing. -/
def RssiGe (a b : Device) : Prop := b.adv.rssi ≤ a.adv.rssi

lemma bubble_insert_perm (x : Device) (l : List Device) :
    (bubble_insert x l).Perm (x :: l) := by
  induction l with
  | nil => rfl
  | cons y ys ih =>
      rw [bubble_insert]
      by_cases h : y.adv.rssi < x.adv.rssi
      · rw [if_pos h]
      · rw [if_neg h]
        exact (ih.cons y).trans (List.Perm.swap x y ys)

lemma bubble_insert_pairwise (x : Device) (l : List Device)
    (h : l.Pairwise RssiGe) : (bubble_insert x l).Pairwise RssiGe := by
  induction l with
  | nil => simp [bubble_insert]
  | cons y ys ih =>
      rw [List.pairwise_cons] at h
      rw [bubble_insert]
      by_cases hlt : y.adv.rssi < x.adv.rssi
      · rw [if_pos hlt, List.pairwise_cons]
        refine ⟨?_, List.pairwise_cons.mpr h⟩
        intro z hz
        rcases List.mem_cons.mp hz with h1 | h2
        · rw [h1]; exact Nat.le_of_lt hlt
        · exact Nat.le_trans (h.1 z h2) (Nat.le_of_lt hlt)
      · rw [if_neg hlt, List.pairwise_cons]
        refine ⟨?_, ih h.2⟩
        intro z hz
        have hz' : z ∈ x :: ys := (bubble_insert_perm x ys).mem_iff.mp hz
        rcases List.mem_cons.mp hz' with h1 | h2
        · rw [h1]; exact Nat.le_of_not_lt hlt
        · exact h.1 z h2

lemma bubble_insert_filter (x : Device) (l : List Device) (r : Nat)
    (h : l.Pairwise RssiGe) :
    (bubble_insert x l).filter (fun c => c.adv.rssi == r) =
      l.filter (fun c => c.adv.rssi == r) ++
        (if x.adv.rssi = r then [x] else []) := by
  induction l with
  | nil =>
      rw [bubble_insert]
      by_cases hr : x.adv.rssi = r
      · simp [hr]
      · simp [List.filter_cons, hr]
  | cons y ys ih =>
      rw [List.pairwise_cons] at h
      rw [bubble_insert]
      by_cases hlt : y.adv.rssi < x.adv.rssi
      · rw [if_pos hlt]
        by_cases hr : x.adv.rssi = r
        · have hnone : ∀ z ∈ y :: ys, z.adv.rssi ≠ r := by
            intro z hz
            rcases List.mem_cons.mp hz with h1 | h2
            · rw [h1]; omega
            · have hzy : z.adv.rssi ≤ y.adv.rssi := h.1 z h2
              omega
          have hnil : (y :: ys).filter (fun c => c.adv.rssi == r) = [] :=
            List.filter_eq_nil_iff.mpr
              (fun z hz => by simpa using hnone z hz)
          rw [List.filter_cons, if_pos (by simpa using hr), hnil, if_pos hr]
          rfl
        · rw [List.filter_cons, if_neg (by simpa using hr), if_neg hr,
            List.append_nil]
      · rw [if_neg hlt, List.filter_cons, List.filter_cons]
        by_cases hy : y.adv.rssi = r
        · rw [if_pos (by simpa using hy), if_pos (by simpa using hy),
            ih h.2, List.cons_append]
        · rw [if_neg (by simpa using hy), if_neg (by simpa using hy),
            ih h.2]

lemma sort_foldl_pairwise (l : List Device) :
    ∀ acc, acc.Pairwise RssiGe →
      (l.foldl (fun acc x => bubble_insert x acc) acc).Pairwise RssiGe := by
  induction l with
  | nil => intro acc h; simpa using h
  | cons x xs ih =>
      intro acc h
      rw [List.foldl_cons]
      exact ih _ (bubble_insert_pairwise x acc h)

lemma sort_foldl_perm (l : List Device) :
    ∀ acc, (l.foldl (fun acc x => bubble_insert x acc) acc).Perm
      (acc ++ l) := by
  induction l with
  | nil => intro acc; simp
  | cons x xs ih =>
      intro acc
      rw [List.foldl_cons]
      refine ((ih (bubble_insert x acc)).trans ?_)
      refine (List.Perm.append_right xs (bubble_insert_perm x acc)).trans ?_
      exact List.perm_middle.symm

lemma sort_foldl_filter (l : List Device) (r : Nat) :
    ∀ acc, acc.Pairwise RssiGe →
      (l.foldl (fun acc x => bubble_insert x acc) acc).filter
          (fun c => c.adv.rssi == r) =
        acc.filter (fun c => c.adv.rssi == r) ++
          l.filter (fun c => c.adv.rssi == r) := by
  induction l with
  | nil => intro acc h; simp
  | cons x xs ih =>
      intro acc h
      rw [List.foldl_cons, ih _ (bubble_insert_pairwise x acc h),
        bubble_insert_filter x acc r h, List.filter_cons]
      by_cases hr : x.adv.rssi = r
      · rw [if_pos hr, if_pos (by simpa using hr), List.append_assoc]
        rfl
      · rw [if_neg hr, if_neg (by simpa using hr), List.append_nil]

/-- The time-ordered trace of the C4 example: ids 1..4 observed at times
1..4 with rssi values 50, 80, 80, 30. -/
def rssiTrace : List (PairAdvData × Nat) :=
  [(mkAdv 1 50, 1), (mkAdv 2 80, 2), (mkAdv 3 80, 3), (mkAdv 4 30, 4)]

/-- Claim C4: the sorted array of print_queue_by_rssi is ordered by rssi
descending, is a permutation of the (up to 32) traversed entries, and is
stable: for every rssi value the entries carrying it keep their queue
order, i.e. most-recently-updated first.  On the example trace with rssi
values [50, 80, 80, 30] in time order the output is [80, 80, 50, 30]
with the two 80s most-recently-updated first (id 3 before id 2). -/
theorem c4_rssi_sort_order :
    (∀ q : List Device,
        (insertion_sort_by_rssi q).Pairwise RssiGe ∧
        (insertion_sort_by_rssi q).Perm (q.take MAX_DEVICES) ∧
        (∀ r : Nat,
          (insertion_sort_by_rssi q).filter (fun c => c.adv.rssi == r) =
            (q.take MAX_DEVICES).filter (fun c => c.adv.rssi == r))) ∧
    ((insertion_sort_by_rssi (runTrace rssiTrace)).map
        (fun c => (c.adv.rssi, c.adv.device_id)) =
      [(80, 3), (80, 2), (50, 1), (30, 4)]) := by
  refine ⟨fun q => ⟨?_, ?_, fun r => ?_⟩, by decide⟩
  · exact sort_foldl_pairwise _ [] List.Pairwise.nil
  · simpa using sort_foldl_perm (q.take MAX_DEVICES) []
  · simpa using sort_foldl_filter (q.take MAX_DEVICES) r []
      List.Pairwise.nil

/-- Witness for C3 at concrete queues for each of the three branches. -/
theorem c3_eviction_policy_witness :
    ((1 ∈ queue_ids (on_discovery (runTrace (fillTrace 2)) (mkAdv 1 9) 9) ↔
        1 ∈ queue_ids (runTrace (fillTrace 2))) ∧
      on_discovery (runTrace (fillTrace 2)) (mkAdv 7 7) 7 =
        ⟨mkAdv 7 7, 7⟩ :: runTrace (fillTrace 2) ∧
      on_discovery (runTrace (fillTrace 32)) (mkAdv 33 33) 33 =
        ⟨mkAdv 33 33, 33⟩ :: (runTrace (fillTrace 32)).dropLast) :=
  ⟨c3_eviction_policy.1 (runTrace (fillTrace 2)) (mkAdv 1 9) 9
      ⟨mkAdv 1 1, 1⟩ (by decide) 1,
    c3_eviction_policy.2.1 (runTrace (fillTrace 2)) (mkAdv 7 7) 7
      (by decide) (by decide),
    c3_eviction_policy.2.2.1 (runTrace (fillTrace 32)) (mkAdv 33 33) 33
      (by decide) (by decide)⟩

/-- Claim C5 (code evaluation at the failing input): with a single live
entry the sorted slot array of print_queue_by_rssi still has all 32
slots, the unfilled slots are NULL (none), and the unconditional print
loop dereferences them, so the view collapses; with a full cache of 32
entries every slot is live and the view is defined. -/
theorem c5_snapshot_reads_null_slots :
    (sorted_slots (runTrace (fillTrace 1))).length = MAX_DEVICES ∧
      none ∈ sorted_slots (runTrace (fillTrace 1)) ∧
      print_queue_by_rssi (runTrace (fillTrace 1)) = none ∧
      (print_queue_by_rssi (runTrace (fillTrace 32))).isSome = true := by
  refine ⟨by decide, by decide, by decide, by decide⟩

lemma filter_ne_eraseP (q : List Device) (key : Nat) :
    (q.eraseP (fun cur => cur.adv.device_id == key)).filter
        (fun cur => cur.adv.device_id != key) =
      q.filter (fun cur => cur.adv.device_id != key) := by
  induction q with
  | nil => rfl
  | cons c rest ih =>
      by_cases hc : c.adv.device_id = key
      · rw [List.eraseP_cons_of_pos (by simpa using hc), List.filter_cons,
          if_neg (by simp [hc])]
      · rw [List.eraseP_cons_of_neg (by simpa using hc), List.filter_cons,
          List.filter_cons, if_pos (by simp [hc]), if_pos (by simp [hc]),
          ih]

/-- Claim C6: on the merge path the queue keeps its length (no second
entry), the updated entry sits at the head carrying the
device_id, device_name, device_data and rf_address of the old entry together with the
incoming rssi and timestamp, and the entries for every other device_id
are untouched, in their relative order. -/
theorem c6_merge_frame (q : List Device) (data : PairAdvData) (ts : Nat)
    (d : Device) (h : find_duplicate q data = some d) :
    (on_discovery q data ts).length = q.length ∧
      (on_discovery q data ts).head? =
        some ⟨⟨d.adv.device_id, d.adv.device_name, d.adv.device_data,
          d.adv.rf_address, data.rssi⟩, ts⟩ ∧
      (on_discovery q data ts).filter
          (fun cur => cur.adv.device_id != data.device_id) =
        q.filter (fun cur => cur.adv.device_id != data.device_id) := by
  have hdid := find_duplicate_some_id q data d h
  refine ⟨on_discovery_length_merge q data ts d h, ?_, ?_⟩
  · simp only [on_discovery, h, List.head?_cons]
  · simp only [on_discovery, h, List.filter_cons]
    rw [if_neg (by simp [hdid])]
    exact filter_ne_eraseP q data.device_id

/-- Witness for C6 on a concrete two-entry queue. -/
theorem c6_merge_frame_witness :
    (on_discovery (runTrace (fillTrace 2)) (mkAdv 1 9) 9).length =
        (runTrace (fillTrace 2)).length ∧
      (on_discovery (runTrace (fillTrace 2)) (mkAdv 1 9) 9).head? =
        some ⟨⟨1, [], [], 0, 9⟩, 9⟩ ∧
      (on_discovery (runTrace (fillTrace 2)) (mkAdv 1 9) 9).filter
          (fun cur => cur.adv.device_id != (mkAdv 1 9).device_id) =
        (runTrace (fillTrace 2)).filter
          (fun cur => cur.adv.device_id != (mkAdv 1 9).device_id) :=
  c6_merge_frame (runTrace (fillTrace 2)) (mkAdv 1 9) 9
    ⟨mkAdv 1 1, 1⟩ (by decide)

/-- Every entry live after a step either carries the new timestamp or was
already live. -/
lemma on_discovery_mem_times (q : List Device) (data : PairAdvData)
    (ts : Nat) (c : Device) (hc : c ∈ on_discovery q data ts) :
    c.discovery_time = ts ∨ c ∈ q := by
  cases hfd : find_duplicate q data with
  | some d =>
      simp only [on_discovery, hfd] at hc
      rcases List.mem_cons.mp hc with h1 | h2
      · left; rw [h1]
      · right; exact (List.eraseP_sublist q).subset h2
  | none =>
      simp only [on_discovery, hfd] at hc
      rcases List.mem_cons.mp hc with h1 | h2
      · left; rw [h1]
      · right; exact (trimmed_sublist q).subset h2

/-- Every discovery_time live after a trace is a timestamp of the
trace. -/
lemma runTrace_times_seen (evs : List (PairAdvData × Nat)) (c : Device)
    (hc : c ∈ runTrace evs) : c.discovery_time ∈ evs.map Prod.snd := by
  induction evs using List.reverseRecOn with
  | nil => cases hc
  | append_singleton l e ih =>
      rw [runTrace, List.foldl_append] at hc
      rcases on_discovery_mem_times _ e.1 e.2 c hc with h1 | h2
      · simp [h1]
      · have := ih h2
        simp only [List.map_append, List.mem_append]
        left; exact this

/-- A step with a timestamp above every live discovery_time keeps the
times strictly decreasing from the head. -/
lemma on_discovery_times_sorted (q : List Device) (data : PairAdvData)
    (ts : Nat) (hq : (queue_times q).Pairwise (fun a b => b < a))
    (hbound : ∀ c ∈ q, c.discovery_time < ts) :
    (queue_times (on_discovery q data ts)).Pairwise (fun a b => b < a) := by
  cases hfd : find_duplicate q data with
  | some d =>
      simp only [on_discovery, hfd, queue_times, List.map_cons]
      rw [List.pairwise_cons]
      constructor
      · intro t ht
        rcases List.mem_map.mp ht with ⟨c, hcq, hct⟩
        rw [← hct]
        exact hbound c ((List.eraseP_sublist q).subset hcq)
      · exact List.Pairwise.sublist
          (List.Sublist.map _ (List.eraseP_sublist q)) hq
  | none =>
      simp only [on_discovery, hfd, queue_times, List.map_cons]
      rw [List.pairwise_cons]
      constructor
      · intro t ht
        rcases List.mem_map.mp ht with ⟨c, hcq, hct⟩
        rw [← hct]
        exact hbound c ((trimmed_sublist q).subset hcq)
      · exact List.Pairwise.sublist
          (List.Sublist.map _ (trimmed_sublist q)) hq

/-- The three-observation trace of the C7 example, and the same trace
followed by a re-observation of the first device. -/
def trace1231 : List (PairAdvData × Nat) :=
  fillTrace 3 ++ [(mkAdv 1 1, 4)]

/-- Claim C7: when the timestamps of the trace are strictly increasing the
queue walked by print_queue_by_time runs from most- to least-recently
updated (strictly decreasing discovery times); after observing ids
1, 2, 3 in order the rows list ids 3, 2, 1, and after additionally
re-observing id 1 they list ids 1, 3, 2. -/
theorem c7_recency_ordering :
    (∀ evs : List (PairAdvData × Nat),
        (evs.map Prod.snd).Pairwise (fun a b => a < b) →
        (queue_times (runTrace evs)).Pairwise (fun a b => b < a)) ∧
      print_queue_by_time (runTrace (fillTrace 3)) =
        [(3, 3, 3), (2, 2, 2), (1, 1, 1)] ∧
      print_queue_by_time (runTrace trace1231) =
        [(4, 1, 1), (3, 3, 3), (2, 2, 2)] := by
  refine ⟨?_, by decide, by decide⟩
  intro evs
  induction evs using List.reverseRecOn with
  | nil => intro _; simp [runTrace, queue_times]
  | append_singleton l e ih =>
      intro hmono
      rw [List.map_append, List.pairwise_append] at hmono
      have hsorted := ih hmono.1
      have hbound : ∀ c ∈ runTrace l, c.discovery_time < e.2 := by
        intro c hc
        have hseen := runTrace_times_seen l c hc
        exact hmono.2.2 c.discovery_time hseen e.2 (by simp)
      have : runTrace (l ++ [e]) = on_discovery (runTrace l) e.1 e.2 := by
        rw [runTrace, List.foldl_append]; rfl
      rw [this]
      exact on_discovery_times_sorted (runTrace l) e.1 e.2 hsorted hbound

/-- Witness for C7 at the strictly increasing three-event trace. -/
theorem c7_recency_ordering_witness :
    ((fillTrace 3).map Prod.snd).Pairwise (fun a b => a < b) ∧
      (queue_times (runTrace (fillTrace 3))).Pairwise (fun a b => b < a) :=
  ⟨by decide, c7_recency_ordering.1 (fillTrace 3) (by decide)⟩

/-- Claim C8: pool_alloc returns a block exactly when the free list is
non-empty; from a fresh capacity-32 pool the first 32 allocations return
the 32 blocks, the 33rd returns NULL (PoolExhausted), and after one
release a further allocation succeeds again. -/
theorem c8_allocator_round_trip :
    (∀ p : FixedPool, (pool_alloc p).2.isSome = p.nextfree.isSome) ∧
      (alloc_many (pool_init 32) 32).2 = (List.range 32).map some ∧
      (pool_alloc (alloc_many (pool_init 32) 32).1).2 = none ∧
      (pool_alloc
          (pool_free (alloc_many (pool_init 32) 32).1 (some 0)).1).2 =
        some 0 := by
  refine ⟨?_, by decide, by decide, by decide⟩
  intro p
  cases h : p.nextfree <;> simp [pool_alloc, h]

/-- The pool state used by the C9 theorems: a fresh capacity-32 pool with
blocks 0 and 1 allocated, block 0 released, then block 1 released, so
the free list is 1, 0, 2, 3, ..., 31. -/
def c9pool : FixedPool :=
  (pool_free (pool_free (alloc_many (pool_init 32) 2).1 (some 0)).1
    (some 1)).1

/-- Counterexample to claim C9: allocate every block of a fresh
capacity-32 pool, release block 31, then release block 31 again with no
intervening allocate.  The double release is not detected (no warning is
printed, because the free link of the block is NULL at that point) and the
pool is corrupted: the free link of block 31 now points at block 31,
so the free list is a cycle rather than a valid set of free blocks. -/
theorem c9_double_free_counterexample :
    (pool_free
          (pool_free (alloc_many (pool_init 32) 32).1 (some 31)).1
          (some 31)).2 = none ∧
      (pool_free
          (pool_free (alloc_many (pool_init 32) 32).1 (some 31)).1
          (some 31)).1.nextfree = some 31 ∧
      (pool_free
          (pool_free (alloc_many (pool_init 32) 32).1 (some 31)).1
          (some 31)).1.blocks.getD 31 none = some 31 := by
  refine ⟨by decide, by decide, by decide⟩

/-- Claim C9 amended: a double release is reported with a double-free
warning exactly in the cases where the free link of the released block is
non-NULL at the time of the call (for example when another release
happened in between); a double release of a block whose link is NULL,
such as the most recent release into an empty free list, goes
undetected; and in either case the block is pushed onto the free list
again, which corrupts the free list — concretely, re-releasing block 0
of c9pool is reported but leaves blocks 0 and 1 linked to each other in
a cycle. -/
theorem c9_double_free_detection :
    (∀ (p : FixedPool) (b x : Nat), p.blocks.getD b none = some x →
        (pool_free p (some b)).2 = some PoolWarning.doubleFree) ∧
      (pool_free c9pool (some 0)).2 = some PoolWarning.doubleFree ∧
      (pool_free c9pool (some 0)).1.nextfree = some 0 ∧
      (pool_free c9pool (some 0)).1.blocks.getD 0 none = some 1 ∧
      (pool_free c9pool (some 0)).1.blocks.getD 1 none = some 0 := by
  refine ⟨?_, by decide, by decide, by decide, by decide⟩
  intro p b x h
  simp only [pool_free, h]
  rfl

/-- Witness for the general part of the C9 amended claim: block 0 of
c9pool still carries a non-NULL free link, so re-releasing it is
reported. -/
theorem c9_double_free_detection_witness :
    c9pool.blocks.getD 0 none = some 2 ∧
      (pool_free c9pool (some 0)).2 = some PoolWarning.doubleFree :=
  ⟨by decide, c9_double_free_detection.1 c9pool 0 2 (by decide)⟩

/-- Claim C10: releasing a NULL pointer prints the null-free warning and
leaves the pool (header and free list) unchanged. -/
theorem c10_null_free_reported_no_state_change (p : FixedPool) :
    pool_free p none = (p, some PoolWarning.nullFree) := rfl
